import Mathlib

/-!
Verification of the SonIA FedEx tracker (`main.py`) against its specification.

The Python source is shallowly embedded: pure helpers become Lean functions on
`String`/`ℕ`/`ℤ`, the JSON payloads become an inductive type with the dict/list
primitives the code uses, Python exceptions become an `Except` monad, IEEE-754
double arithmetic (used by the progress-percent computation) is modelled
exactly by integer round-to-nearest-even at 53 bits of precision, and the
background job, token cache and retry control flow become explicit state
passing driven by oracles for the network responses.

String helpers: Python lowers/uppers/slices strings character-wise; we mirror
that on `String.data` (the source strings are ASCII).
-/

def lowChar (c : Char) : Char :=
  if 'A' ≤ c ∧ c ≤ 'Z' then Char.ofNat (c.toNat + 32) else c

def upChar (c : Char) : Char :=
  if 'a' ≤ c ∧ c ≤ 'z' then Char.ofNat (c.toNat - 32) else c

/-- Python `s.lower()` (ASCII range, as used by the source). -/
def pyLower (s : String) : String := ⟨s.data.map lowChar⟩

/-- Python `s.upper()` (ASCII range, as used by the source). -/
def pyUpper (s : String) : String := ⟨s.data.map upChar⟩

/-- Python slicing `s[:n]` (character-wise). -/
def strTake (s : String) (n : ℕ) : String := ⟨s.data.take n⟩

/-- does `hay` start with `needle`? -/
def leadsWith : List Char → List Char → Bool
  | [], _ => true
  | _ :: _, [] => false
  | a :: as, b :: bs => a == b && leadsWith as bs

/-- Python `needle in hay` substring test. -/
def subOf (needle hay : String) : Bool :=
  go needle.data hay.data
where
  go : List Char → List Char → Bool
    | n, [] => n.isEmpty
    | n, h :: t => leadsWith n (h :: t) || go n t

/-!
`get_short_status` (main.py lines 93-177): normalize a FedEx (code, description)
pair to the SonIA canonical status.  The description is checked first against a
fixed sequence of case-insensitive substrings; only when none matches is the
code looked up in `status_mapping`; failing that, the description truncated to
30 characters (or "Unknown" when the description is empty) is returned.
-/

/-- the in-transit phrase list of main.py lines 120-122. -/
def inTransitPhrases : List String :=
  ["in transit", "departed", "arrived", "left fedex", "at fedex", "on the way",
   "at destination sort", "at local fedex", "in fedex",
   "international shipment release"]

/-- the customs phrase list of main.py line 126. -/
def customsPhrases : List String :=
  ["clearance", "customs", "import", "broker"]

/-- the code → status lookup table of main.py lines 150-170. -/
def status_mapping : List (String × String) :=
  [("DL", "Delivered"), ("OD", "Out for Delivery"), ("PU", "Picked Up"),
   ("IT", "In Transit"), ("AA", "In Transit"), ("AR", "In Transit"),
   ("DP", "In Transit"), ("AF", "In Transit"), ("PM", "In Transit"),
   ("DE", "Exception"), ("SE", "Exception"), ("OC", "Exception"),
   ("HL", "On Hold"), ("RS", "Returned to Sender"), ("CA", "Cancelled"),
   ("CD", "In Customs"), ("IN", "Label Created"), ("SP", "Label Created"),
   ("PL", "Label Created")]

/-- main.py line 177: `description[:30] if description else "Unknown"`. -/
def fallbackDesc (description : String) : String :=
  if description ≠ "" then strTake description 30 else "Unknown"

/-- PRIORITY 2 of `get_short_status` (main.py lines 149-177): the code lookup
with the truncated-description fallback. -/
def codeStatusFallback (status_code description : String) : String :=
  if status_code ≠ "" then
    match status_mapping.lookup (pyUpper status_code) with
    | some v => v
    | none => fallbackDesc description
  else fallbackDesc description

/-- main.py lines 93-177, translated if-for-if. -/
def get_short_status (status_code description : String) : String :=
  let d := if description ≠ "" then pyLower description else ""
  if subOf "shipment information sent" d then "Label Created"
  else if subOf "label created" d || subOf "shipping label" d then "Label Created"
  else if subOf "delivered" d then "Delivered"
  else if subOf "out for delivery" d || subOf "on fedex vehicle for delivery" d then
    "Out for Delivery"
  else if subOf "picked up" d || subOf "package received" d then "Picked Up"
  else if inTransitPhrases.any (fun x => subOf x d) then "In Transit"
  else if customsPhrases.any (fun x => subOf x d) then "In Customs"
  else if subOf "exception" d then "Exception"
  else if subOf "delay" d then "Delayed"
  else if subOf "hold" d then "On Hold"
  else if subOf "delivery attempt" d || subOf "unable to deliver" d then
    "Delivery Attempted"
  else if subOf "return" d then "Returned to Sender"
  else codeStatusFallback status_code description

/-- The spec's view of PRIORITY 1: one ordered list of (substring, canonical
status) pairs, each substring mapped to exactly one canonical value, scanned in
order against the lowered description. -/
def descPhrases : List (String × String) :=
  [("shipment information sent", "Label Created"),
   ("label created", "Label Created"), ("shipping label", "Label Created"),
   ("delivered", "Delivered"),
   ("out for delivery", "Out for Delivery"),
   ("on fedex vehicle for delivery", "Out for Delivery"),
   ("picked up", "Picked Up"), ("package received", "Picked Up"),
   ("in transit", "In Transit"), ("departed", "In Transit"),
   ("arrived", "In Transit"), ("left fedex", "In Transit"),
   ("at fedex", "In Transit"), ("on the way", "In Transit"),
   ("at destination sort", "In Transit"), ("at local fedex", "In Transit"),
   ("in fedex", "In Transit"), ("international shipment release", "In Transit"),
   ("clearance", "In Customs"), ("customs", "In Customs"),
   ("import", "In Customs"), ("broker", "In Customs"),
   ("exception", "Exception"), ("delay", "Delayed"), ("hold", "On Hold"),
   ("delivery attempt", "Delivery Attempted"),
   ("unable to deliver", "Delivery Attempted"),
   ("return", "Returned to Sender")]

/-- The first matching description phrase, per the spec's ordered table. -/
def phraseStatus (description : String) : Option String :=
  let d := if description ≠ "" then pyLower description else ""
  (descPhrases.find? (fun p => subOf p.1 d)).map Prod.snd

/-!
`calculate_working_days` (main.py lines 179-186).  Dates are modelled as day
numbers (`ℤ`), counted from a fixed Monday, so that Python's
`date.weekday()` (Monday = 0) becomes `d % 7`; `timedelta(days=1)` is `+ 1`.
-/

/-- Python `date.weekday()` in the day-number model: 0 = Monday … 6 = Sunday. -/
def weekday (d : ℤ) : ℤ := d % 7

/-- the loop body of `calculate_working_days`; `fuel` is the number of
remaining iterations `(end_date - current).toNat`. -/
def workingDaysLoop : ℕ → ℤ → ℕ
  | 0, _ => 0
  | fuel + 1, current =>
    (if current % 7 < 5 then 1 else 0) + workingDaysLoop fuel (current + 1)

/-- main.py lines 179-186: walk `[start_date, end_date)` one day at a time,
counting the days whose weekday index is < 5. -/
def calculate_working_days (start_date end_date : ℤ) : ℕ :=
  workingDaysLoop (end_date - start_date).toNat start_date

/-!
The progress percentage (main.py line 965) is computed as
`int(((i + 1) / total) * 100)`: an IEEE-754 binary64 division, a binary64
multiplication by 100, and a truncation toward zero.  We model binary64
arithmetic on the positive values arising here exactly: a double is a pair
`(m, e)` standing for `m * 2 ^ (e - 52)` where `2 ^ 52 ≤ m < 2 ^ 53`
(`(0, 0)` stands for `0.0`), and each operation rounds the exact rational
result to 53 significant bits with round-half-to-even.  The values in this
program stay far away from overflow and subnormals, so exponent-range
clamping never fires and is not modelled.
-/

/-- largest `k` with `2 ^ k ≤ n` (for `1 ≤ n ≤ fuel`). -/
def log2n : ℕ → ℕ → ℕ
  | 0, _ => 0
  | fuel + 1, n => if 2 ≤ n then log2n fuel (n / 2) + 1 else 0

/-- decides `2 ^ c ≤ a / b` using only integer arithmetic. -/
def le2powQ (c : ℤ) (a b : ℕ) : Bool :=
  if 0 ≤ c then b * 2 ^ c.toNat ≤ a else b ≤ a * 2 ^ (-c).toNat

/-- the binade of `a / b`: the `e` with `2 ^ e ≤ a / b < 2 ^ (e + 1)`
(for `a, b ≥ 1`). -/
def floorLog2 (a b : ℕ) : ℤ :=
  let c : ℤ := (log2n a a : ℤ) - (log2n b b : ℤ)
  if le2powQ c a b then c else c - 1

/-- round `A / B` to the nearest integer, ties to even. -/
def rheNat (A B : ℕ) : ℕ :=
  let q := A / B
  let r := A % B
  if 2 * r < B then q else if B < 2 * r then q + 1 else
  if q % 2 = 0 then q else q + 1

/-- round `a / b` to a binary64 double `(m, e)` of value `m * 2 ^ (e - 52)`. -/
def fl64 (a b : ℕ) : ℕ × ℤ :=
  if a = 0 ∨ b = 0 then (0, 0) else
  let e := floorLog2 a b
  let n : ℕ × ℕ :=
    if 0 ≤ 52 - e then (a * 2 ^ (52 - e).toNat, b) else (a, b * 2 ^ (e - 52).toNat)
  (rheNat n.1 n.2, e)

/-- the exact rational value of the double `(m, e)`. -/
def dval (me : ℕ × ℤ) : ℚ := (me.1 : ℚ) * (2 : ℚ) ^ (me.2 - 52)

/-- main.py line 965, `int(((i + 1) / total) * 100)` in Python (binary64)
semantics: divide, multiply by 100 (each correctly rounded), truncate toward
zero (= floor, the value being nonnegative). -/
def pyPercent (c t : ℕ) : ℕ :=
  let d := fl64 c t
  let p :=
    if 0 ≤ 52 - d.2 then fl64 (100 * d.1) (2 ^ (52 - d.2).toNat)
    else fl64 (100 * d.1 * 2 ^ (d.2 - 52).toNat) 1
  if 0 ≤ 52 - p.2 then p.1 / 2 ^ (52 - p.2).toNat else p.1 * 2 ^ (p.2 - 52).toNat

/-!
JSON payloads and the Python dict/list/str primitives used by
`parse_tracking_response` and `generate_sonia_analysis`.  Python exceptions
(AttributeError, KeyError, TypeError, ValueError) are modelled by
`Except String`; the string is the exception text.
-/

inductive Json where
  | null
  | str (s : String)
  | num (n : ℤ)
  | bool (b : Bool)
  | arr (xs : List Json)
  | obj (fields : List (String × Json))

/-- the Python type name, used in exception messages. -/
def typeName : Json → String
  | .null => "NoneType"
  | .str _ => "str"
  | .num _ => "int"
  | .bool _ => "bool"
  | .arr _ => "list"
  | .obj _ => "dict"

/-- Python truthiness of a JSON value. -/
def truthy : Json → Bool
  | .null => false
  | .str s => s ≠ ""
  | .num n => n ≠ 0
  | .bool b => b
  | .arr xs => !xs.isEmpty
  | .obj fs => !fs.isEmpty

/-- Python `x.get(k, d)`: defaulted dict lookup, AttributeError on a non-dict. -/
def jGet (j : Json) (k : String) (d : Json) : Except String Json :=
  match j with
  | .obj fs => .ok ((fs.lookup k).getD d)
  | _ => .error ("'" ++ typeName j ++ "' object has no attribute 'get'")

/-- Python `x[k]`: dict indexing, KeyError/TypeError on failure. -/
def jKey (j : Json) (k : String) : Except String Json :=
  match j with
  | .obj fs =>
    match fs.lookup k with
    | some v => .ok v
    | none => .error ("KeyError: " ++ k)
  | _ => .error ("'" ++ typeName j ++ "' object is not subscriptable")

/-- Python `x[0]`. -/
def jFirst (j : Json) : Except String Json :=
  match j with
  | .arr (x :: _) => .ok x
  | .arr [] => .error "list index out of range"
  | _ => .error ("'" ++ typeName j ++ "' object is not subscriptable")

/-- Python `for v in x`: lists yield elements, strings characters, dicts keys. -/
def jItems (j : Json) : Except String (List Json) :=
  match j with
  | .arr xs => .ok xs
  | .str s => .ok (s.data.map (fun ch => .str (String.mk [ch])))
  | .obj fs => .ok (fs.map (fun f => Json.str f.1))
  | _ => .error ("'" ++ typeName j ++ "' object is not iterable")

/-- Python `k in x` (dict-key / element / substring membership). -/
def keyIn (j : Json) (k : String) : Except String Bool :=
  match j with
  | .obj fs => .ok (fs.any (fun f => f.1 == k))
  | .arr xs => .ok (xs.any (fun x => match x with | .str s => s == k | _ => false))
  | .str s => .ok (subOf k s)
  | _ => .error ("argument of type '" ++ typeName j ++ "' is not iterable")

/-- a leaf the code goes on to use as a `str` (lowering, slicing, joining);
a non-string raises (as the corresponding Python string operation would). -/
def jStr (j : Json) : Except String String :=
  match j with
  | .str s => .ok s
  | _ => .error ("'" ++ typeName j ++ "' object is not a str")

/-- Python `j == s` for a string literal `s`: non-strings compare unequal. -/
def jIsStr (j : Json) (s : String) : Bool :=
  match j with
  | .str x => x == s
  | _ => false

/-!
Dates.  A `datetime` at midnight is modelled by its proleptic-Gregorian day
number (`ℤ`), with 0001-01-01 ↦ 0; that date was a Monday, so Python
`date.weekday()` is `d % 7` with 0 = Monday, matching `weekday` above.
`datetime.now()` is a `today : ℤ` parameter; `(now - dt).days` for a midnight
`dt` equals the difference of the day numbers.
-/

/-- days in the months of a non-leap year before month `m` (1-based). -/
def cumMonthDays (m : ℕ) : ℕ :=
  (([31, 28, 31, 30, 31, 30, 31, 31, 30, 31, 30, 31] : List ℕ).take (m - 1)).sum

def isLeapYear (y : ℕ) : Bool :=
  (y % 4 = 0 && y % 100 ≠ 0) || y % 400 = 0

/-- proleptic-Gregorian day number of year-month-day, 0001-01-01 ↦ 0. -/
def dayNumber (y m d : ℕ) : ℤ :=
  (365 * (y - 1) + ((y - 1) / 4 - (y - 1) / 100 + (y - 1) / 400) + cumMonthDays m +
    (if 2 < m ∧ isLeapYear y then 1 else 0) + (d - 1) : ℕ)

def digitVal (c : Char) : ℕ := c.toNat - 48

/-- Python `datetime.strptime(s, "%Y-%m-%d")`: parse or raise ValueError. -/
def strptime_Ymd (s : String) : Except String ℤ :=
  match s.data with
  | [y1, y2, y3, y4, c1, m1, m2, c2, d1, d2] =>
    if ([y1, y2, y3, y4, m1, m2, d1, d2].all Char.isDigit) ∧ c1 = '-' ∧ c2 = '-' then
      let mo := 10 * digitVal m1 + digitVal m2
      let dy := 10 * digitVal d1 + digitVal d2
      if 1 ≤ mo ∧ mo ≤ 12 ∧ 1 ≤ dy ∧ dy ≤ 31 then
        .ok (dayNumber (1000 * digitVal y1 + 100 * digitVal y2 + 10 * digitVal y3 + digitVal y4)
          mo dy)
      else .error ("time data '" ++ s ++ "' does not match format '%Y-%m-%d'")
    else .error ("time data '" ++ s ++ "' does not match format '%Y-%m-%d'")
  | _ => .error ("time data '" ++ s ++ "' does not match format '%Y-%m-%d'")

/-!
The per-shipment record built by `parse_tracking_response` (main.py lines
265-279).  The `days_after_*` fields carry either an elapsed-day integer or
the "ENTREGADO EN … DIAS" sentinel string, exactly as the dict does.
-/

inductive StrInt where
  | int (n : ℤ)
  | str (s : String)
deriving DecidableEq

structure Record where
  tracking_number : String
  sonia_status : String
  fedex_status : String
  history_summary : String
  sonia_recommendation : String
  label_creation_date : String
  ship_date : String
  delivery_date : String
  days_after_shipment : StrInt
  working_days_after_shipment : StrInt
  days_after_label_creation : StrInt
  destination_location : String
  is_delivered : Bool
  client_name : String
deriving DecidableEq

/-- the dict literal of main.py lines 265-279 (plus the `client_name` slot the
job loop adds at line 960). -/
def initRecord (tracking_number : String) : Record where
  tracking_number := tracking_number
  sonia_status := "Unknown"
  fedex_status := ""
  history_summary := ""
  sonia_recommendation := ""
  label_creation_date := ""
  ship_date := ""
  delivery_date := ""
  days_after_shipment := .int 0
  working_days_after_shipment := .int 0
  days_after_label_creation := .int 0
  destination_location := ""
  is_delivered := false
  client_name := ""

/-- attach the record mutated so far to an exception, so that the handler of
main.py line 379 sees the partially-updated dict, as in Python. -/
def withRec (r : Record) (x : Except String α) : Except (String × Record) α :=
  match x with
  | .ok v => .ok v
  | .error e => .error (e, r)

/-- the history loop of `generate_sonia_analysis` (main.py lines 190-199). -/
def historyParts : List Json → Except String (List String)
  | [] => .ok []
  | ev :: rest => do
    let descJ ← jGet ev "eventDescription" (.str "")
    let event_desc ← jStr descJ
    let dateJ ← jGet ev "date" (.str "")
    let event_date ←
      if truthy dateJ then do
        let s ← jStr dateJ
        pure (strTake s 10)
      else pure ""
    let locJ ← jGet ev "scanLocation" (.obj [])
    let cityJ ← jGet locJ "city" (.str "")
    let event_city ← jStr cityJ
    let tailParts ← historyParts rest
    if event_desc ≠ "" then
      if event_city ≠ "" then
        pure ((event_date ++ ": " ++ event_desc ++ " (" ++ event_city ++ ")") :: tailParts)
      else
        pure ((event_date ++ ": " ++ event_desc) :: tailParts)
    else pure tailParts

/-- main.py lines 188-262.  `today` stands for `datetime.now()`. -/
def generate_sonia_analysis (track_data : Json) (status : String) (is_delivered : Bool)
    (delivery_date ship_date label_date : String) (today : ℤ) :
    Except String (String × String) := do
  let scanJ ← jGet track_data "scanEvents" (.arr [])
  let scan_events ← jItems scanJ
  let parts ← historyParts (scan_events.take 5)
  let history_summary :=
    if parts ≠ [] then String.intercalate " -> " parts else "No scan history available"
  let recommendation :=
    if is_delivered then
      if delivery_date ≠ "" ∧ ship_date ≠ "" then
        match (do
          let delivery_dt ← strptime_Ymd delivery_date
          let ship_dt ← strptime_Ymd ship_date
          let transit_days := delivery_dt - ship_dt
          pure (if transit_days ≤ 2 then "Excelente tiempo de entrega! Paquete llego rapido."
            else if transit_days ≤ 5 then "Buen tiempo de entrega dentro de lo esperado."
            else "Entrega tomo mas tiempo de lo usual.") : Except String String) with
        | .ok rec => rec
        | .error _ => "Paquete entregado exitosamente."
      else "Paquete entregado exitosamente."
    else if subOf "label created" (pyLower status) then
      if label_date ≠ "" then
        match (do
          let label_dt ← strptime_Ymd label_date
          let days_since_label := today - label_dt
          pure (if 5 < days_since_label then
              "ATENCION: " ++ toString days_since_label ++
                " dias desde que se creo la etiqueta. Contactar al remitente."
            else if 2 < days_since_label then
              "Etiqueta creada pero aun no recogida. Verificar con remitente."
            else "Recien creada. Esperando recogida de FedEx.") : Except String String) with
        | .ok rec => rec
        | .error _ => "Esperando recogida de FedEx."
      else "Esperando recogida de FedEx."
    else if subOf "in transit" (pyLower status) then
      if ship_date ≠ "" then
        match (do
          let ship_dt ← strptime_Ymd ship_date
          let days_in_transit := today - ship_dt
          pure (if 7 < days_in_transit then
              "ATENCION: " ++ toString days_in_transit ++ " dias en transito. Verificar retrasos."
            else if 4 < days_in_transit then
              "Tiempo de transito extendido. Posible retraso en aduana."
            else "Paquete moviendose normalmente en red FedEx.") : Except String String) with
        | .ok rec => rec
        | .error _ => "Paquete en transito al destino."
      else "Paquete en transito al destino."
    else if subOf "out for delivery" (pyLower status) then
      "Paquete en camino para entrega hoy!"
    else if subOf "exception" (pyLower status) || subOf "hold" (pyLower status) then
      "ACCION REQUERIDA: Paquete tiene una excepcion. Contactar FedEx."
    else if subOf "customs" (pyLower status) || subOf "clearance" (pyLower status) then
      "Paquete en proceso de aduana. Puede tomar varios dias."
    else if subOf "delayed" (pyLower status) then
      "ATENCION: Paquete retrasado. Monitorear de cerca."
    else "Monitorear envio para actualizaciones."
  pure (history_summary, recommendation)

/-- the `dateAndTimes` loop of main.py lines 299-309. -/
def dateTimesLoop : List Json → Record → Except (String × Record) Record
  | [], r => .ok r
  | dt :: rest, r => do
    let typeJ ← withRec r (jGet dt "type" (.str ""))
    let valJ ← withRec r (jGet dt "dateTime" (.str ""))
    let r ←
      if truthy valJ then do
        let dv ← withRec r (jStr valJ)
        let date_only := strTake dv 10
        if jIsStr typeJ "ACTUAL_PICKUP" || jIsStr typeJ "SHIP" then
          pure {r with ship_date := date_only}
        else if jIsStr typeJ "ACTUAL_DELIVERY" then
          pure {r with delivery_date := date_only, is_delivered := true}
        else pure r
      else pure r
    dateTimesLoop rest r

/-- the label-creation scan-event loop of main.py lines 313-321 (runs over the
reversed event list, stops at the first match). -/
def labelLoop : List Json → Record → Except (String × Record) Record
  | [], r => .ok r
  | ev :: rest, r => do
    let descJ ← withRec r (jGet ev "eventDescription" (.str ""))
    let event_desc ← withRec r (jStr descJ)
    let dl := pyLower event_desc
    let dateJ ← withRec r (jGet ev "date" (.str ""))
    if truthy dateJ &&
        (subOf "shipment information sent" dl || subOf "label created" dl ||
          subOf "shipping label" dl) then do
      let ds ← withRec r (jStr dateJ)
      pure {r with label_creation_date := strTake ds 10}
    else labelLoop rest r

/-- the ship-date scan-event loop of main.py lines 324-330. -/
def shipLoop : List Json → Record → Except (String × Record) Record
  | [], r => .ok r
  | ev :: rest, r => do
    let descJ ← withRec r (jGet ev "eventDescription" (.str ""))
    let event_desc ← withRec r (jStr descJ)
    let dl := pyLower event_desc
    let dateJ ← withRec r (jGet ev "date" (.str ""))
    if truthy dateJ && (subOf "picked up" dl || subOf "package received" dl) then do
      let ds ← withRec r (jStr dateJ)
      pure {r with ship_date := strTake ds 10}
    else shipLoop rest r

/-- the body of the `try` of main.py lines 282-377, for a truthy response
containing the key "output". -/
def parseInner (resp : Json) (today : ℤ) (r0 : Record) :
    Except (String × Record) Record := do
  let r := r0
  let outputJ ← withRec r (jKey resp "output")
  let complete_track ← withRec r (jGet outputJ "completeTrackResults" (.arr []))
  if truthy complete_track then do
    let ct0 ← withRec r (jFirst complete_track)
    let track_result ← withRec r (jGet ct0 "trackResults" (.arr []))
    if truthy track_result then do
      let track_data ← withRec r (jFirst track_result)
      let latest_status ← withRec r (jGet track_data "latestStatusDetail" (.obj []))
      let codeJ ← withRec r (jGet latest_status "code" (.str ""))
      let status_code ← withRec r (jStr codeJ)
      let descJ ← withRec r (jGet latest_status "description" (.str ""))
      let status_desc ← withRec r (jStr descJ)
      let r := {r with sonia_status := get_short_status status_code status_desc}
      let r := {r with fedex_status := if status_desc ≠ "" then status_desc else status_code}
      let r := {r with is_delivered := subOf "delivered" (pyLower r.sonia_status)}
      let dtJ ← withRec r (jGet track_data "dateAndTimes" (.arr []))
      let date_times ← withRec r (jItems dtJ)
      let r ← dateTimesLoop date_times r
      let seJ ← withRec r (jGet track_data "scanEvents" (.arr []))
      let scan_events ← withRec r (jItems seJ)
      let r ← labelLoop scan_events.reverse r
      let r ← if r.ship_date = "" then shipLoop scan_events.reverse r else pure r
      let riJ ← withRec r (jGet track_data "recipientInformation" (.obj []))
      let dest1 ← withRec r (jGet riJ "address" (.obj []))
      let dest ←
        if truthy dest1 = false then do
          let dlJ ← withRec r (jGet track_data "destinationLocation" (.obj []))
          let lcaJ ← withRec r (jGet dlJ "locationContactAndAddress" (.obj []))
          withRec r (jGet lcaJ "address" (.obj []))
        else pure dest1
      let r ←
        if truthy dest then do
          let cityJ ← withRec r (jGet dest "city" (.str ""))
          let city ← withRec r (jStr cityJ)
          let stJ ← withRec r (jGet dest "stateOrProvinceCode" (.str ""))
          let state ← withRec r (jStr stJ)
          let coJ ← withRec r (jGet dest "countryCode" (.str ""))
          let country ← withRec r (jStr coJ)
          let parts := ([city, state, country].filter (fun p => p ≠ ""))
          pure {r with destination_location := String.intercalate ", " parts}
        else pure r
      let r :=
        if r.ship_date ≠ "" then
          match (do
            let ship_dt ← strptime_Ymd r.ship_date
            if r.is_delivered ∧ r.delivery_date ≠ "" then do
              let delivery_dt ← strptime_Ymd r.delivery_date
              let days_to_deliver := delivery_dt - ship_dt
              let wdays := calculate_working_days ship_dt delivery_dt
              pure {r with
                days_after_shipment :=
                  StrInt.str ("ENTREGADO EN " ++ toString days_to_deliver ++ " DIAS"),
                working_days_after_shipment :=
                  StrInt.str ("ENTREGADO EN " ++ toString (wdays : ℤ) ++ " DIAS HABILES")}
            else
              pure {r with
                days_after_shipment := StrInt.int (today - ship_dt),
                working_days_after_shipment :=
                  StrInt.int (calculate_working_days ship_dt today)} : Except String Record) with
          | .ok r2 => r2
          | .error _ => r
        else r
      let r :=
        if r.label_creation_date ≠ "" then
          match (do
            let label_dt ← strptime_Ymd r.label_creation_date
            if r.is_delivered ∧ r.delivery_date ≠ "" then do
              let delivery_dt ← strptime_Ymd r.delivery_date
              pure {r with
                days_after_label_creation :=
                  StrInt.str ("ENTREGADO EN " ++ toString (delivery_dt - label_dt) ++ " DIAS")}
            else
              pure {r with days_after_label_creation := StrInt.int (today - label_dt)} :
              Except String Record) with
          | .ok r2 => r2
          | .error _ => r
        else r
      let hr ← withRec r (generate_sonia_analysis track_data r.sonia_status r.is_delivered
        r.delivery_date r.ship_date r.label_creation_date today)
      pure {r with history_summary := hr.1, sonia_recommendation := hr.2}
    else pure r
  else pure r

/-- main.py lines 264-383.  A `None` response (the failure marker returned by
`track_shipment`) is falsy and yields the default record; an exception raised
anywhere in the body is caught at line 379 and stamps the error text into
`sonia_recommendation` of the record as mutated so far. -/
def parse_tracking_response (response : Option Json) (tracking_number : String)
    (today : ℤ) : Record :=
  let r0 := initRecord tracking_number
  let body : Except (String × Record) Record :=
    match response with
    | none => .ok r0
    | some resp =>
      if truthy resp then do
        let hasKey ← withRec r0 (keyIn resp "output")
        if hasKey then parseInner resp today r0 else pure r0
      else pure r0
  match body with
  | .ok r => r
  | .error (e, r) => {r with sonia_recommendation := "Error procesando datos: " ++ e}

/-!
The background job (main.py lines 946-972).  The job dict's observable fields
form a `JState`; the run of `process_tracking_job` is modelled as the sequence
of states after job creation and after each loop iteration, driven by a
`fetch` oracle giving, per identifier index, what `client.track_shipment`
did: returned a payload, returned `None`, or raised (a network exception),
the last being caught only by the job-level handler of main.py line 969.
-/

inductive JStatus where
  | processing
  | completed
  | error
deriving DecidableEq

structure JState where
  status : JStatus
  total : ℕ
  current : ℕ
  percent : ℕ
deriving DecidableEq

inductive FetchOutcome where
  | ok (response : Option Json)
  | raise (msg : String)

structure JobRun where
  states : List JState
  results : List Record
  status : JStatus
  error : Option String

/-- the `for` loop of main.py lines 954-965 plus the terminal transitions of
lines 967 and 969-972; arguments `i cur pct acc` carry the loop index and the
job fields mutated so far. -/
def procLoop (total : ℕ) (today : ℤ) (fetch : ℕ → FetchOutcome) :
    List (String × String) → ℕ → ℕ → ℕ → List Record → JobRun
  | [], _, cur, pct, acc =>
    { states := [⟨.completed, total, cur, pct⟩], results := acc,
      status := .completed, error := none }
  | (tn, cl) :: rest, i, cur, pct, acc =>
    match fetch i with
    | .raise msg =>
      { states := [⟨.error, total, cur, pct⟩], results := acc,
        status := .error, error := some msg }
    | .ok resp =>
      let parsed := {parse_tracking_response resp tn today with client_name := cl}
      let acc2 := acc ++ [parsed]
      let cur2 := i + 1
      let pct2 := pyPercent (i + 1) total
      let rest_run := procLoop total today fetch rest (i + 1) cur2 pct2 acc2
      { rest_run with states := ⟨.processing, total, cur2, pct2⟩ :: rest_run.states }

/-- main.py lines 946-972: the whole background task, started on the job
created at lines 927-935 (status processing, current 0, percent 0). -/
def process_tracking_job (items : List (String × String)) (today : ℤ)
    (fetch : ℕ → FetchOutcome) : JobRun :=
  let run := procLoop items.length today fetch items 0 0 0 []
  { run with states := ⟨.processing, items.length, 0, 0⟩ :: run.states }

/-!
The token cache (main.py lines 29-65).  `time.time()` values and durations are
exact rationals; `now` is passed explicitly where Python reads the clock.
-/

structure TokenState where
  access_token : Option String
  token_expires_at : Option ℚ

/-- `self.token_buffer = 300` (main.py line 34). -/
def token_buffer : ℚ := 300

/-- Python `not self.access_token` (None or empty string). -/
def falsyTok : Option String → Bool
  | none => true
  | some s => s = ""

/-- Python `not self.token_expires_at` (None or 0). -/
def falsyExp : Option ℚ → Bool
  | none => true
  | some t => t = 0

/-- main.py lines 36-40. -/
def is_token_expired (st : TokenState) (now : ℚ) : Bool :=
  if falsyTok st.access_token || falsyExp st.token_expires_at then true
  else
    match st.token_expires_at with
    | some exp => decide (exp - token_buffer ≤ now)
    | none => true

/-- main.py lines 42-59: one token exchange at time `now`; on HTTP 200 (`ok`)
the token and `expires_at = now + expires_in` are stored, otherwise the state
is left untouched and `false` is returned. -/
def authenticate (st : TokenState) (now : ℚ) (ok : Bool) (tok : String)
    (expires_in : ℚ) : TokenState × Bool :=
  if ok then ({ access_token := some tok, token_expires_at := some (now + expires_in) }, true)
  else (st, false)

/-- main.py lines 62-65: the token step at the top of `track_shipment`; the
returned flag records whether a token exchange was performed. -/
def ensureToken (st : TokenState) (now : ℚ) (ok : Bool) (tok : String)
    (expires_in : ℚ) : TokenState × Bool :=
  if is_token_expired st now then ((authenticate st now ok tok expires_in).1, true)
  else (st, false)

/-!
The retry control flow of `track_shipment` (main.py lines 67-91), driven by an
oracle giving the HTTP status and body of each successive POST of this call.
-/

structure TrackAttempt where
  posts : ℕ
  refreshes : ℕ
  delays : List ℚ
  finalStatus : ℕ
  result : Option Json

/-- main.py lines 71-91: one POST; on 401 one forced token refresh and retry;
on 429 (of the response in hand) one 2-second sleep and retry; 200 returns the
parsed body, anything else returns `None`. -/
def track_shipment_flow (status : ℕ → ℕ) (body : ℕ → Json) : TrackAttempt :=
  let s1 := status 0
  let r : ℕ × ℕ × ℕ := if s1 = 401 then (1, 1, status 1) else (0, 0, s1)
  let d : List ℚ × ℕ × ℕ :=
    if r.2.2 = 429 then ([(2 : ℚ)], r.2.1 + 1, status (r.2.1 + 1)) else ([], r.2.1, r.2.2)
  { posts := d.2.1 + 1, refreshes := r.1, delays := d.1, finalStatus := d.2.2,
    result := if d.2.2 = 200 then some (body d.2.1) else none }

/-!
The job registry and its two read endpoints (main.py lines 974-1017).  The
module-level dict `jobs` is a partial map from job id to job record; building
the Excel report (pandas + base64) is outside the embedding, so `get_result`
takes a `genFail` parameter: `none` when the report builds, `some msg` when it
raises, which the handler of main.py line 1015 turns into an error response.
-/

structure JobRec where
  status : JStatus
  total : ℕ
  current : ℕ
  percent : ℕ
  results : List Record
  error : Option String

abbrev Registry := String → Option JobRec

inductive ProgressResp where
  | notFound
  | snapshot (status : JStatus) (total current percent : ℕ) (error : Option String)

/-- main.py lines 974-987. -/
def get_progress (jobs : Registry) (job_id : String) : ProgressResp :=
  match jobs job_id with
  | none => .notFound
  | some j => .snapshot j.status j.total j.current j.percent j.error

inductive ResultResp where
  | notFound
  | notCompleted
  | success (report : List Record)
  | generationError (msg : String)

/-- main.py lines 989-1017: not-found and not-completed guards, then report
generation; only a successful generation deletes the job (line 1011 runs after
lines 1000-1008 succeeded, inside the `try`). -/
def get_result (jobs : Registry) (job_id : String) (genFail : Option String) :
    ResultResp × Registry :=
  match jobs job_id with
  | none => (.notFound, jobs)
  | some j =>
    if j.status ≠ .completed then (.notCompleted, jobs)
    else
      match genFail with
      | some msg => (.generationError msg, jobs)
      | none => (.success j.results, fun k => if k = job_id then none else jobs k)

-- concrete payloads and fixtures for the scenario claims
def respDelivered : Json :=
  Json.obj [("output", Json.obj [("completeTrackResults", Json.arr [Json.obj
    [("trackResults", Json.arr [Json.obj [("latestStatusDetail", Json.obj
      [("code", Json.str "DL"), ("description", Json.str "Delivered")])]])]])])]

def respTransit : Json :=
  Json.obj [("output", Json.obj [("completeTrackResults", Json.arr [Json.obj
    [("trackResults", Json.arr [Json.obj [("latestStatusDetail", Json.obj
      [("code", Json.str "IT"), ("description", Json.str "In transit")])]])]])])]

/-- the 3-identifier scenario batch of spec section 8. -/
def items3 : List (String × String) :=
  [("740001", "A"), ("740002", "B"), ("740003", "C")]

/-- upstream behavior: success, success, rate-limit with retries exhausted
(`track_shipment` then returns `None`). -/
def fetch3 : ℕ → FetchOutcome := fun i =>
  if i = 0 then .ok (some respDelivered)
  else if i = 1 then .ok (some respTransit)
  else .ok none

/-- an upstream that answers 401 to every POST. -/
def always401 : ℕ → ℕ := fun _ => 401

/-- an upstream that answers 429 to every POST. -/
def always429 : ℕ → ℕ := fun _ => 429

/-- an upstream that answers 503 to every POST. -/
def always503 : ℕ → ℕ := fun _ => 503

def nullBody : ℕ → Json := fun _ => Json.null

/-- a completed one-job registry for the result/progress scenarios. -/
def fixtureRec : JobRec :=
  { status := .completed, total := 2, current := 2, percent := 100,
    results := [], error := none }

def fixtureJobs : Registry := fun k => if k = "job-1" then some fixtureRec else none

-- helper lemmas


theorem find?_map_pair (v dl : String) (ss : List String) :
    ((ss.map (fun s => (s, v))).find? (fun q => subOf q.1 dl)).map Prod.snd =
      if ss.any (fun s => subOf s dl) then some v else none := by
  induction ss with
  | nil => rfl
  | cons a t ih =>
    rw [List.map_cons, List.find?_cons, List.any_cons]
    cases h : subOf a dl
    · simpa only [h, cond_false, Bool.false_or] using ih
    · simp [h]

theorem find?_map_snd_append (l1 l2 : List (String × String)) (p : String × String → Bool) :
    ((l1 ++ l2).find? p).map Prod.snd =
      ((l1.find? p).map Prod.snd).or ((l2.find? p).map Prod.snd) := by
  rw [List.find?_append]; cases l1.find? p <;> rfl

theorem ite_or_getD (c : Bool) (v : String) (rest : Option String) (fb : String) :
    (((if c then some v else none).or rest).getD fb) =
      if c then v else rest.getD fb := by
  cases c <;> rfl

theorem ite_getD (c : Bool) (v : String) (fb : String) :
    ((if c then some v else none).getD fb) = if c then v else fb := by
  cases c <;> rfl

theorem descPhrases_grouped :
    descPhrases =
      (["shipment information sent"].map (fun s => (s, "Label Created"))) ++
      ((["label created", "shipping label"].map (fun s => (s, "Label Created"))) ++
      ((["delivered"].map (fun s => (s, "Delivered"))) ++
      ((["out for delivery", "on fedex vehicle for delivery"].map (fun s => (s, "Out for Delivery"))) ++
      ((["picked up", "package received"].map (fun s => (s, "Picked Up"))) ++
      ((inTransitPhrases.map (fun s => (s, "In Transit"))) ++
      ((customsPhrases.map (fun s => (s, "In Customs"))) ++
      ((["exception"].map (fun s => (s, "Exception"))) ++
      ((["delay"].map (fun s => (s, "Delayed"))) ++
      ((["hold"].map (fun s => (s, "On Hold"))) ++
      ((["delivery attempt", "unable to deliver"].map (fun s => (s, "Delivery Attempted"))) ++
      ((["return"].map (fun s => (s, "Returned to Sender")))))))))))))) := by
  rfl

theorem get_short_status_eq_phrase (c d : String) :
    get_short_status c d = (phraseStatus d).getD (codeStatusFallback c d) := by
  simp only [get_short_status, phraseStatus, descPhrases_grouped,
    find?_map_snd_append, find?_map_pair, List.any_cons, List.any_nil, Bool.or_false,
    ite_or_getD, ite_getD]



theorem log2n_spec (fuel n : ℕ) (h1 : 1 ≤ n) (h2 : n ≤ fuel) :
    2 ^ log2n fuel n ≤ n ∧ n < 2 ^ (log2n fuel n + 1) := by
  induction fuel generalizing n with
  | zero => omega
  | succ f ih =>
    rw [log2n]
    split_ifs with h
    · have hn2 : 1 ≤ n / 2 := by omega
      have hf : n / 2 ≤ f := by omega
      obtain ⟨l, u⟩ := ih (n / 2) hn2 hf
      have e1 : (2:ℕ) ^ (log2n f (n / 2) + 1) = 2 * 2 ^ log2n f (n / 2) := by ring
      have e2 : (2:ℕ) ^ (log2n f (n / 2) + 1 + 1) = 2 * 2 ^ (log2n f (n / 2) + 1) := by ring
      omega
    · have : n = 1 := by omega
      subst this
      norm_num

theorem rheNat_ge_div (A B : ℕ) : A / B ≤ rheNat A B := by
  unfold rheNat
  dsimp only
  split_ifs <;> omega

theorem rheNat_le (A B : ℕ) (hB : 1 ≤ B) : (rheNat A B : ℚ) ≤ (A : ℚ) / B + 1 / 2 := by
  have hB0 : (0:ℚ) < (B:ℚ) := by exact_mod_cast hB
  have hqr : (B:ℚ) * ((A / B : ℕ) : ℚ) + ((A % B : ℕ) : ℚ) = (A:ℚ) := by
    exact_mod_cast Nat.div_add_mod A B
  have hr : ((A % B : ℕ) : ℚ) < (B : ℚ) := by
    exact_mod_cast Nat.mod_lt _ hB
  rw [div_add_div _ _ (ne_of_gt hB0) (two_ne_zero), le_div_iff₀ (by positivity)]
  unfold rheNat
  dsimp only
  split_ifs with h1 h2 h3
  · have h1' : 2 * ((A % B : ℕ) : ℚ) < (B:ℚ) := by exact_mod_cast h1
    nlinarith
  · have h2' : (B:ℚ) < 2 * ((A % B : ℕ) : ℚ) := by exact_mod_cast h2
    push_cast
    nlinarith
  · have ht : (B:ℚ) = 2 * ((A % B : ℕ) : ℚ) := by
      have : B = 2 * (A % B) := by omega
      exact_mod_cast this
    nlinarith
  · have ht : (B:ℚ) = 2 * ((A % B : ℕ) : ℚ) := by
      have : B = 2 * (A % B) := by omega
      exact_mod_cast this
    push_cast
    nlinarith

theorem le2powQ_le {c : ℤ} {a b : ℕ} (hb : 1 ≤ b) (h : le2powQ c a b = true) :
    (2:ℚ) ^ c ≤ (a:ℚ) / b := by
  have hb0 : (0:ℚ) < (b:ℚ) := by exact_mod_cast hb
  unfold le2powQ at h
  split_ifs at h with hc
  · rw [decide_eq_true_iff] at h
    rw [le_div_iff₀ hb0]
    have hcast : (2:ℚ) ^ c = ((2 ^ c.toNat : ℕ) : ℚ) := by
      rw [show c = (c.toNat : ℤ) from (Int.toNat_of_nonneg hc).symm, zpow_natCast]
      push_cast
      rfl
    rw [hcast]
    calc ((2 ^ c.toNat : ℕ) : ℚ) * (b:ℚ) = ((b * 2 ^ c.toNat : ℕ) : ℚ) := by push_cast; ring
      _ ≤ (a:ℚ) := by exact_mod_cast h
  · rw [decide_eq_true_iff] at h
    push_neg at hc
    have hcm : c = -(((-c).toNat : ℕ) : ℤ) := by omega
    rw [hcm, zpow_neg, zpow_natCast]
    rw [inv_le_iff_one_le_mul₀ (by positivity)]
    have h' : (b:ℚ) ≤ (a:ℚ) * 2 ^ (-c).toNat := by exact_mod_cast h
    rw [show (a:ℚ) / b * 2 ^ (-c).toNat = ((a:ℚ) * 2 ^ (-c).toNat) / b by ring,
      le_div_iff₀ hb0]
    linarith

theorem floorLog2_le (a b : ℕ) (ha : 1 ≤ a) (hb : 1 ≤ b) :
    (2:ℚ) ^ (floorLog2 a b) ≤ (a:ℚ) / b := by
  unfold floorLog2
  dsimp only
  split_ifs with h
  · exact le2powQ_le hb h
  · obtain ⟨la_le, -⟩ := log2n_spec a a ha le_rfl
    obtain ⟨-, lb_lt⟩ := log2n_spec b b hb le_rfl
    have h1 : ((2:ℚ)) ^ ((log2n a a : ℕ) : ℤ) ≤ (a:ℚ) := by
      rw [zpow_natCast]
      exact_mod_cast la_le
    have h2 : (b:ℚ) ≤ (2:ℚ) ^ (((log2n b b : ℕ) : ℤ) + 1) := by
      rw [show ((log2n b b : ℕ) : ℤ) + 1 = (((log2n b b + 1 : ℕ) : ℕ) : ℤ) by push_cast; ring,
        zpow_natCast]
      exact_mod_cast le_of_lt lb_lt
    have key : (2:ℚ) ^ (((log2n a a : ℕ) : ℤ) - ((log2n b b : ℕ) : ℤ) - 1) =
        (2:ℚ) ^ ((log2n a a : ℕ) : ℤ) / (2:ℚ) ^ (((log2n b b : ℕ) : ℤ) + 1) := by
      rw [← zpow_sub₀ (by norm_num : (2:ℚ) ≠ 0)]
      ring_nf
    rw [key]
    exact div_le_div₀ (by positivity) h1 (by positivity) h2

theorem fl64_eq (a b : ℕ) (ha : 1 ≤ a) (hb : 1 ≤ b) :
    ∃ A B : ℕ, 1 ≤ B ∧ fl64 a b = (rheNat A B, floorLog2 a b) ∧
      (A:ℚ) / B = ((a:ℚ) / b) * (2:ℚ) ^ ((52:ℤ) - floorLog2 a b) := by
  have hb0 : (0:ℚ) < (b:ℚ) := by exact_mod_cast hb
  unfold fl64
  rw [if_neg (by omega)]
  dsimp only
  split_ifs with h
  · refine ⟨a * 2 ^ ((52:ℤ) - floorLog2 a b).toNat, b, hb, rfl, ?_⟩
    rw [show (52:ℤ) - floorLog2 a b = ((((52:ℤ) - floorLog2 a b).toNat : ℕ) : ℤ) by omega,
      zpow_natCast]
    simp only [Int.toNat_natCast]
    push_cast
    ring
  · refine ⟨a, b * 2 ^ (floorLog2 a b - 52).toNat, ?_, rfl, ?_⟩
    · have : 0 < b * 2 ^ (floorLog2 a b - 52).toNat := by positivity
      omega
    push_neg at h
    rw [show (52:ℤ) - floorLog2 a b = -(((floorLog2 a b - 52).toNat : ℕ) : ℤ) by omega,
      zpow_neg, zpow_natCast]
    have h2 : (0:ℚ) < (2:ℚ) ^ (floorLog2 a b - 52).toNat := by positivity
    push_cast
    field_simp

theorem fl64_le (a b : ℕ) (ha : 1 ≤ a) (hb : 1 ≤ b) :
    dval (fl64 a b) ≤ ((a:ℚ) / b) * (1 + 1 / 2 ^ 53) := by
  obtain ⟨A, B, hB, heq, hratio⟩ := fl64_eq a b ha hb
  have hblog := floorLog2_le a b ha hb
  have hzpos : (0:ℚ) < (2:ℚ) ^ (floorLog2 a b - 52) := by positivity
  have h1 : dval (fl64 a b) = (rheNat A B : ℚ) * (2:ℚ) ^ (floorLog2 a b - 52) := by
    rw [heq]; rfl
  have h2 : (rheNat A B : ℚ) ≤ ((a:ℚ) / b) * (2:ℚ) ^ ((52:ℤ) - floorLog2 a b) + 1 / 2 := by
    calc (rheNat A B : ℚ) ≤ (A:ℚ) / B + 1 / 2 := rheNat_le A B hB
      _ = ((a:ℚ) / b) * (2:ℚ) ^ ((52:ℤ) - floorLog2 a b) + 1 / 2 := by rw [hratio]
  have hcancel : (2:ℚ) ^ ((52:ℤ) - floorLog2 a b) * (2:ℚ) ^ (floorLog2 a b - 52) = 1 := by
    rw [← zpow_add₀ (by norm_num : (2:ℚ) ≠ 0)]
    norm_num
  have h3 : dval (fl64 a b) ≤ (a:ℚ) / b + (2:ℚ) ^ (floorLog2 a b - 53) := by
    rw [h1]
    calc (rheNat A B : ℚ) * (2:ℚ) ^ (floorLog2 a b - 52)
        ≤ (((a:ℚ) / b) * (2:ℚ) ^ ((52:ℤ) - floorLog2 a b) + 1 / 2) *
            (2:ℚ) ^ (floorLog2 a b - 52) := by
          exact mul_le_mul_of_nonneg_right h2 (le_of_lt hzpos)
      _ = ((a:ℚ) / b) * ((2:ℚ) ^ ((52:ℤ) - floorLog2 a b) * (2:ℚ) ^ (floorLog2 a b - 52)) +
            (2:ℚ) ^ (floorLog2 a b - 52) / 2 := by ring
      _ = (a:ℚ) / b + (2:ℚ) ^ (floorLog2 a b - 52) / 2 := by rw [hcancel]; ring
      _ = (a:ℚ) / b + (2:ℚ) ^ (floorLog2 a b - 53) := by
          rw [show floorLog2 a b - 52 = (floorLog2 a b - 53) + 1 by ring,
            zpow_add₀ (by norm_num : (2:ℚ) ≠ 0)]
          ring
  have h4 : (2:ℚ) ^ (floorLog2 a b - 53) ≤ ((a:ℚ) / b) * (1 / 2 ^ 53) := by
    have : (2:ℚ) ^ (floorLog2 a b - 53) = (2:ℚ) ^ (floorLog2 a b) * (2:ℚ) ^ (-(53:ℤ)) := by
      rw [← zpow_add₀ (by norm_num : (2:ℚ) ≠ 0)]
      ring_nf
    rw [this, show (2:ℚ) ^ (-(53:ℤ)) = 1 / 2 ^ 53 by
      rw [zpow_neg, show ((53:ℤ)) = ((53:ℕ) : ℤ) by rfl, zpow_natCast]; ring]
    have := mul_le_mul_of_nonneg_right hblog (by positivity : (0:ℚ) ≤ 1 / 2 ^ 53)
    linarith
  calc dval (fl64 a b) ≤ (a:ℚ) / b + (2:ℚ) ^ (floorLog2 a b - 53) := h3
    _ ≤ (a:ℚ) / b + ((a:ℚ) / b) * (1 / 2 ^ 53) := by linarith
    _ = ((a:ℚ) / b) * (1 + 1 / 2 ^ 53) := by ring

theorem fl64_fst_pos (a b : ℕ) (ha : 1 ≤ a) (hb : 1 ≤ b) : 1 ≤ (fl64 a b).1 := by
  obtain ⟨A, B, hB, heq, hratio⟩ := fl64_eq a b ha hb
  have hblog := floorLog2_le a b ha hb
  have hB0 : (0:ℚ) < (B:ℚ) := by exact_mod_cast hB
  have habpos : (0:ℚ) < (2:ℚ) ^ ((52:ℤ) - floorLog2 a b) := by positivity
  have hone : (1:ℚ) ≤ (A:ℚ) / B := by
    rw [hratio]
    have hc : (2:ℚ) ^ (floorLog2 a b) * (2:ℚ) ^ ((52:ℤ) - floorLog2 a b) = (2:ℚ) ^ (52:ℤ) := by
      rw [← zpow_add₀ (by norm_num : (2:ℚ) ≠ 0)]
      ring_nf
    have h52 : (1:ℚ) ≤ (2:ℚ) ^ (52:ℤ) := by
      rw [show ((52:ℤ)) = ((52:ℕ) : ℤ) by rfl, zpow_natCast]
      norm_num
    calc (1:ℚ) ≤ (2:ℚ) ^ (52:ℤ) := h52
      _ = (2:ℚ) ^ (floorLog2 a b) * (2:ℚ) ^ ((52:ℤ) - floorLog2 a b) := hc.symm
      _ ≤ ((a:ℚ) / b) * (2:ℚ) ^ ((52:ℤ) - floorLog2 a b) :=
          mul_le_mul_of_nonneg_right hblog (le_of_lt habpos)
  have hBA : B ≤ A := by
    have : (B:ℚ) ≤ (A:ℚ) := by
      rw [le_div_iff₀ hB0] at hone
      linarith
    exact_mod_cast this
  have : 1 ≤ A / B := (Nat.one_le_div_iff (by omega)).2 hBA
  calc 1 ≤ A / B := this
    _ ≤ rheNat A B := rheNat_ge_div A B
    _ = (fl64 a b).1 := by rw [heq]

theorem truncDouble_le (m : ℕ) (e : ℤ) :
    ((if 0 ≤ 52 - e then m / 2 ^ (52 - e).toNat else m * 2 ^ (e - 52).toNat : ℕ) : ℚ) ≤
      dval (m, e) := by
  unfold dval
  dsimp only
  split_ifs with h
  · have hk : (2:ℚ) ^ (e - 52) = ((2:ℚ) ^ (52 - e).toNat)⁻¹ := by
      rw [show e - 52 = -(((52 - e).toNat : ℕ) : ℤ) by omega, zpow_neg, zpow_natCast]
    rw [hk]
    calc ((m / 2 ^ (52 - e).toNat : ℕ) : ℚ) ≤ (m:ℚ) / ((2 ^ (52 - e).toNat : ℕ) : ℚ) :=
          Nat.cast_div_le
      _ = (m:ℚ) * ((2:ℚ) ^ (52 - e).toNat)⁻¹ := by push_cast; ring
  · refine le_of_eq ?_
    rw [show e - 52 = (((e - 52).toNat : ℕ) : ℤ) by omega, zpow_natCast]
    simp only [Int.toNat_natCast]
    push_cast
    ring

theorem dval_nonneg (p : ℕ × ℤ) : 0 ≤ dval p := by
  unfold dval
  positivity

theorem pyPercent_le_100 (c t : ℕ) (hc : 1 ≤ c) (hct : c ≤ t) : pyPercent c t ≤ 100 := by
  have ht : 1 ≤ t := le_trans hc hct
  have hd1 : 1 ≤ (fl64 c t).1 := fl64_fst_pos c t hc ht
  have hdle : dval (fl64 c t) ≤ ((c:ℚ) / t) * (1 + 1 / 2 ^ 53) := fl64_le c t hc ht
  have hct' : (c:ℚ) / t ≤ 1 := by
    rw [div_le_one (by positivity)]
    exact_mod_cast hct
  have hctpos : (0:ℚ) ≤ (c:ℚ) / t := by positivity
  have hdle1 : dval (fl64 c t) ≤ 1 + 1 / 2 ^ 53 := le_trans hdle (by nlinarith)
  have hdnn : 0 ≤ dval (fl64 c t) := dval_nonneg _
  unfold pyPercent
  dsimp only
  have key : ∀ A2 B2 : ℕ, 1 ≤ A2 → 1 ≤ B2 →
      (A2:ℚ) / B2 = 100 * dval (fl64 c t) →
      (if 0 ≤ 52 - (fl64 A2 B2).2 then (fl64 A2 B2).1 / 2 ^ (52 - (fl64 A2 B2).2).toNat
        else (fl64 A2 B2).1 * 2 ^ ((fl64 A2 B2).2 - 52).toNat) ≤ 100 := by
    intro A2 B2 hA2 hB2 hr2
    have hple : dval (fl64 A2 B2) ≤ ((A2:ℚ) / B2) * (1 + 1 / 2 ^ 53) := fl64_le A2 B2 hA2 hB2
    have hlt : dval (fl64 A2 B2) < 101 := by
      rw [hr2] at hple
      have h100 : (100:ℚ) * dval (fl64 c t) * (1 + 1 / 2 ^ 53) ≤
          100 * (1 + 1 / 2 ^ 53) * (1 + 1 / 2 ^ 53) := by nlinarith
      have hfin : (100:ℚ) * (1 + 1 / 2 ^ 53) * (1 + 1 / 2 ^ 53) < 101 := by norm_num
      linarith
    have htr := truncDouble_le (fl64 A2 B2).1 (fl64 A2 B2).2
    have hq : ((if 0 ≤ 52 - (fl64 A2 B2).2 then (fl64 A2 B2).1 / 2 ^ (52 - (fl64 A2 B2).2).toNat
        else (fl64 A2 B2).1 * 2 ^ ((fl64 A2 B2).2 - 52).toNat : ℕ) : ℚ) < 101 :=
      lt_of_le_of_lt htr hlt
    have hnat : (if 0 ≤ 52 - (fl64 A2 B2).2 then (fl64 A2 B2).1 / 2 ^ (52 - (fl64 A2 B2).2).toNat
        else (fl64 A2 B2).1 * 2 ^ ((fl64 A2 B2).2 - 52).toNat) < 101 := by exact_mod_cast hq
    omega
  by_cases h2 : 0 ≤ 52 - (fl64 c t).2
  · rw [if_pos h2]
    refine key (100 * (fl64 c t).1) (2 ^ (52 - (fl64 c t).2).toNat) (by omega)
      Nat.one_le_two_pow ?_
    have hk : ((2 ^ (52 - (fl64 c t).2).toNat : ℕ) : ℚ) = (2:ℚ) ^ ((52:ℤ) - (fl64 c t).2) := by
      rw [show (52:ℤ) - (fl64 c t).2 = (((52 - (fl64 c t).2).toNat : ℕ) : ℤ) by omega,
        zpow_natCast]
      push_cast
      rfl
    unfold dval
    rw [hk]
    have hinv : (2:ℚ) ^ ((52:ℤ) - (fl64 c t).2) = ((2:ℚ) ^ ((fl64 c t).2 - 52))⁻¹ := by
      rw [← zpow_neg]
      ring_nf
    rw [hinv]
    have h2ne : ((2:ℚ) ^ ((fl64 c t).2 - 52)) ≠ 0 := by positivity
    push_cast
    field_simp
    ring
  · rw [if_neg h2]
    refine key (100 * (fl64 c t).1 * 2 ^ ((fl64 c t).2 - 52).toNat) 1 ?_ le_rfl ?_
    · have h1 : 1 ≤ 100 * (fl64 c t).1 := by omega
      have h2p : 1 ≤ 2 ^ ((fl64 c t).2 - 52).toNat := Nat.one_le_two_pow
      exact Nat.one_le_iff_ne_zero.2 (by positivity)
    · unfold dval
      rw [show ((fl64 c t).2 - 52) = ((((fl64 c t).2 - 52).toNat : ℕ) : ℤ) by omega,
        zpow_natCast]
      simp only [Int.toNat_natCast]
      push_cast
      ring

/-- the job-loop invariant: starting iteration `i` with the counters the loop
maintains, every later state keeps `total` fixed, `current ≤ total`,
`percent ≤ 100` with `percent` the Python float evaluation, every transition
leaves a `processing` state with `current` non-decreasing, and the one
terminal state sits at the end and matches the run's final status. -/
theorem procLoop_spec (total : ℕ) (today : ℤ) (fetch : ℕ → FetchOutcome)
    (items : List (String × String)) :
    ∀ (i pct : ℕ) (acc : List Record), i + items.length = total → pct ≤ 100 →
      (i = 0 → pct = 0) → (1 ≤ i → pct = pyPercent i total) →
      (List.Chain' (fun a b : JState => a.status = .processing ∧ a.current ≤ b.current)
        (⟨.processing, total, i, pct⟩ :: (procLoop total today fetch items i i pct acc).states)) ∧
      (∀ st ∈ (procLoop total today fetch items i i pct acc).states,
        st.total = total ∧ st.current ≤ total ∧ st.percent ≤ 100 ∧
        (st.current = 0 → st.percent = 0) ∧
        (1 ≤ st.current → st.percent = pyPercent st.current total)) ∧
      (∀ st ∈ (procLoop total today fetch items i i pct acc).states.dropLast,
        st.status = .processing) ∧
      (procLoop total today fetch items i i pct acc).states ≠ [] ∧
      ((procLoop total today fetch items i i pct acc).states.getLast?).map JState.status =
        some (procLoop total today fetch items i i pct acc).status ∧
      ((procLoop total today fetch items i i pct acc).status = .completed ∨
        (procLoop total today fetch items i i pct acc).status = .error) := by
  induction items with
  | nil =>
    intro i pct acc hi hp hp0 hp1
    have hit : i = total := by simpa using hi
    refine ⟨?_, ?_, ?_, ?_, ?_, ?_⟩
    · exact List.chain'_cons.2 ⟨⟨rfl, le_rfl⟩, List.chain'_singleton _⟩
    · intro st hst
      simp only [procLoop, List.mem_singleton] at hst
      subst hst
      exact ⟨rfl, by show i ≤ total; omega, hp, hp0, hp1⟩
    · intro st hst
      simp [procLoop] at hst
    · simp [procLoop]
    · simp [procLoop]
    · simp [procLoop]
  | cons item rest ih =>
    intro i pct acc hi hp hp0 hp1
    obtain ⟨tn, cl⟩ := item
    show _ ∧ _
    cases hfetch : fetch i with
    | raise msg =>
      simp only [procLoop, hfetch]
      refine ⟨?_, ?_, ?_, ?_, ?_, ?_⟩
      · exact List.chain'_cons.2 ⟨⟨rfl, le_rfl⟩, List.chain'_singleton _⟩
      · intro st hst
        simp only [List.mem_singleton] at hst
        subst hst
        have hle : i ≤ total := by
          simp only [List.length_cons] at hi
          omega
        exact ⟨rfl, hle, hp, hp0, hp1⟩
      · intro st hst
        simp at hst
      · simp
      · simp
      · simp
    | ok resp =>
      have hlen : (i + 1) + rest.length = total := by
        simp at hi
        omega
      have hple : pyPercent (i + 1) total ≤ 100 :=
        pyPercent_le_100 (i + 1) total (by omega) (by omega)
      obtain ⟨ihChain, ihInv, ihDrop, ihNe, ihLast, ihTerm⟩ :=
        ih (i + 1) (pyPercent (i + 1) total)
          (acc ++ [{parse_tracking_response resp tn today with client_name := cl}])
          hlen hple (by omega) (fun _ => rfl)
      simp only [procLoop, hfetch]
      refine ⟨?_, ?_, ?_, ?_, ?_, ?_⟩
      · exact List.chain'_cons.2 ⟨⟨rfl, by show i ≤ i + 1; omega⟩, ihChain⟩
      · intro st hst
        rcases List.mem_cons.1 hst with h | h
        · subst h
          exact ⟨rfl, by show i + 1 ≤ total; omega, hple,
            fun h => absurd (show i + 1 = 0 from h) (by omega), fun _ => rfl⟩
        · exact ihInv st h
      · intro st hst
        obtain ⟨x, xs, hx⟩ := List.exists_cons_of_ne_nil ihNe
        rw [hx, List.dropLast_cons₂] at hst
        rcases List.mem_cons.1 hst with h | h
        · subst h
          rfl
        · exact ihDrop st (by rw [hx]; exact h)
      · simp
      · obtain ⟨x, xs, hx⟩ := List.exists_cons_of_ne_nil ihNe
        rw [hx, List.getLast?_cons_cons]
        rw [hx] at ihLast
        exact ihLast
      · exact ihTerm

theorem workingDaysLoop_card (n : ℕ) : ∀ s : ℤ,
    workingDaysLoop n s = ((Finset.Ico s (s + (n : ℤ))).filter (fun d => weekday d < 5)).card := by
  induction n with
  | zero =>
    intro s
    simp [workingDaysLoop]
  | succ k ih =>
    intro s
    have hsplit : Finset.Ico s (s + ((k + 1 : ℕ) : ℤ)) =
        insert s (Finset.Ico (s + 1) (s + 1 + (k : ℤ))) := by
      ext x
      simp only [Finset.mem_Ico, Finset.mem_insert]
      push_cast
      omega
    have hnotmem : s ∉ (Finset.Ico (s + 1) (s + 1 + (k : ℤ))).filter (fun d => weekday d < 5) := by
      simp only [Finset.mem_filter, Finset.mem_Ico]
      omega
    rw [workingDaysLoop, hsplit, Finset.filter_insert]
    by_cases h : s % 7 < 5
    · rw [if_pos h, if_pos (show weekday s < 5 from h), Finset.card_insert_of_not_mem hnotmem,
        ih (s + 1)]
      omega
    · rw [if_neg h, if_neg (show ¬weekday s < 5 from h), ih (s + 1)]
      omega

/-- any 7-day window contains exactly 5 working days, whatever its
starting weekday. -/
theorem workingDaysLoop_seven (s : ℤ) : workingDaysLoop 7 s = 5 := by
  have hexp : workingDaysLoop 7 s =
      (if s % 7 < 5 then 1 else 0) +
      ((if (s + 1) % 7 < 5 then 1 else 0) +
      ((if (s + 1 + 1) % 7 < 5 then 1 else 0) +
      ((if (s + 1 + 1 + 1) % 7 < 5 then 1 else 0) +
      ((if (s + 1 + 1 + 1 + 1) % 7 < 5 then 1 else 0) +
      ((if (s + 1 + 1 + 1 + 1 + 1) % 7 < 5 then 1 else 0) +
      ((if (s + 1 + 1 + 1 + 1 + 1 + 1) % 7 < 5 then 1 else 0) + 0)))))) := rfl
  rw [hexp]
  split_ifs <;> omega

/-- Claim C1: `get_short_status` matches the free-text description first
against its ordered, case-insensitive substring list (`descPhrases`, scanned
in order by `phraseStatus`) and consults the code-to-status lookup table
(`codeStatusFallback`) only when no description phrase matches; in particular
`get_short_status "DL" "Shipment information sent to FedEx"` returns
"Label Created" even though code "DL" alone maps to "Delivered". -/
theorem c1_description_first_then_code :
    (∀ code desc, get_short_status code desc =
      (phraseStatus desc).getD (codeStatusFallback code desc)) ∧
    get_short_status "DL" "Shipment information sent to FedEx" = "Label Created" ∧
    status_mapping.lookup "DL" = some "Delivered" := by
  refine ⟨get_short_status_eq_phrase, by decide, by decide⟩

/-- Claim C9: `calculate_working_days start end` counts exactly the days of
the half-open interval `[start, end)` whose weekday index (Monday-first) is
0-4; for every Monday `m` the count over `[m, m + 7)` is 5, and for every
Saturday `s` the count over `[s, s + 7)` is also 5. -/
theorem c9_working_days :
    (∀ start_date end_date : ℤ, calculate_working_days start_date end_date =
      ((Finset.Ico start_date end_date).filter (fun d => weekday d < 5)).card) ∧
    (∀ m : ℤ, weekday m = 0 → calculate_working_days m (m + 7) = 5) ∧
    (∀ s : ℤ, weekday s = 5 → calculate_working_days s (s + 7) = 5) := by
  have hcard : ∀ start_date end_date : ℤ, calculate_working_days start_date end_date =
      ((Finset.Ico start_date end_date).filter (fun d => weekday d < 5)).card := by
    intro a b
    unfold calculate_working_days
    rcases le_or_lt a b with h | h
    · rw [workingDaysLoop_card]
      congr 1
      rw [show a + ((b - a).toNat : ℤ) = b by omega]
    · rw [show (b - a).toNat = 0 by omega]
      rw [Finset.Ico_eq_empty (by omega)]
      simp [workingDaysLoop]
  have hseven : ∀ s : ℤ, calculate_working_days s (s + 7) = 5 := by
    intro s
    unfold calculate_working_days
    rw [show (s + 7 - s).toNat = 7 by omega]
    exact workingDaysLoop_seven s
  exact ⟨hcard, fun m _ => hseven m, fun s _ => hseven s⟩

/-- Claim C9 witness: the Monday and Saturday instances at days 0 and 5 of
the epoch week. -/
theorem c9_working_days_witness :
    calculate_working_days 0 (0 + 7) = 5 ∧ calculate_working_days 5 (5 + 7) = 5 :=
  ⟨c9_working_days.2.1 0 (by decide), c9_working_days.2.2 5 (by decide)⟩

/-- Claim C3: the first successful result fetch of a completed job returns
its report and deletes the job from the registry, so that every later result
fetch and every later progress query with the same id answers not-found. -/
theorem c3_result_one_shot (jobs : Registry) (id : String) (j : JobRec)
    (hJ : jobs id = some j) (hc : j.status = .completed) :
    (get_result jobs id none).1 = .success j.results ∧
    (∀ genFail2, (get_result ((get_result jobs id none).2) id genFail2).1 = .notFound) ∧
    get_progress ((get_result jobs id none).2) id = .notFound := by
  unfold get_result get_progress
  rw [hJ]
  simp [hc]

/-- Claim C3 witness: on the one-job fixture registry, the fetch succeeds
once and then both endpoints answer not-found. -/
theorem c3_result_one_shot_witness :
    (get_result fixtureJobs "job-1" none).1 = .success fixtureRec.results ∧
    (∀ genFail2, (get_result ((get_result fixtureJobs "job-1" none).2) "job-1" genFail2).1 =
      .notFound) ∧
    get_progress ((get_result fixtureJobs "job-1" none).2) "job-1" = .notFound :=
  c3_result_one_shot fixtureJobs "job-1" fixtureRec rfl rfl

/-- Claim C10: if report generation raises inside `get_result` for a
completed job, the job is not deleted — the endpoint returns an error
response, the registry still maps the id to the same record, and a later
fetch (with generation succeeding) still returns the report. -/
theorem c10_no_delete_on_generation_error (jobs : Registry) (id : String) (j : JobRec)
    (msg : String) (hJ : jobs id = some j) (hc : j.status = .completed) :
    get_result jobs id (some msg) = (.generationError msg, jobs) ∧
    (get_result jobs id (some msg)).2 id = some j ∧
    (get_result ((get_result jobs id (some msg)).2) id none).1 = .success j.results := by
  unfold get_result
  rw [hJ]
  simp [hc, hJ]

/-- Claim C10 witness: on the fixture registry a failing generation leaves
the job in place and a retry succeeds. -/
theorem c10_no_delete_witness :
    get_result fixtureJobs "job-1" (some "boom") = (.generationError "boom", fixtureJobs) ∧
    (get_result fixtureJobs "job-1" (some "boom")).2 "job-1" = some fixtureRec ∧
    (get_result ((get_result fixtureJobs "job-1" (some "boom")).2) "job-1" none).1 =
      .success fixtureRec.results :=
  c10_no_delete_on_generation_error fixtureJobs "job-1" fixtureRec "boom" rfl rfl

/-- Claim C4: after a successful token exchange at `t0` with lifetime `T`
(`token_buffer = 300 < T`), a `track_shipment` call strictly before
`t0 + (T - token_buffer)` reuses the cached token and performs no exchange,
while a call at or after that instant performs a new exchange. -/
theorem c4_token_reuse (t0 T : ℚ) (tok : String) (htok : tok ≠ "")
    (hT : token_buffer < T) (ht0 : 0 ≤ t0) (now : ℚ) (ok2 : Bool) (tok2 : String) (T2 : ℚ) :
    token_buffer = 300 ∧
    (now < t0 + (T - token_buffer) →
      ensureToken (authenticate ⟨none, none⟩ t0 true tok T).1 now ok2 tok2 T2 =
        ((authenticate ⟨none, none⟩ t0 true tok T).1, false)) ∧
    (t0 + (T - token_buffer) ≤ now →
      (ensureToken (authenticate ⟨none, none⟩ t0 true tok T).1 now ok2 tok2 T2).2 = true) := by
  have hbuf : token_buffer = 300 := rfl
  have hexp0 : t0 + T ≠ 0 := by
    rw [hbuf] at hT
    intro h
    nlinarith
  have hstate : (authenticate ⟨none, none⟩ t0 true tok T).1 =
      ⟨some tok, some (t0 + T)⟩ := rfl
  have hfalsy : falsyTok (some tok) = false := by
    simp [falsyTok, htok]
  have hfalsyE : falsyExp (some (t0 + T)) = false := by
    simp [falsyExp, hexp0]
  have hexpired : is_token_expired ⟨some tok, some (t0 + T)⟩ now =
      decide (t0 + T - token_buffer ≤ now) := by
    unfold is_token_expired
    dsimp only
    rw [hfalsy, hfalsyE]
    simp
  refine ⟨rfl, ?_, ?_⟩
  · intro hlt
    have hnot : ¬(t0 + T - token_buffer ≤ now) := by
      intro h
      linarith
    unfold ensureToken
    rw [hstate, hexpired]
    simp [hnot]
  · intro hge
    have hP : t0 + T - token_buffer ≤ now := by linarith
    unfold ensureToken
    rw [hstate, hexpired]
    simp [hP]

/-- Claim C4 witness: lifetime 3600 s obtained at time 0; a call at 100 s
reuses the cached token, a call at 3300 s (= T - 300) refreshes. -/
theorem c4_token_reuse_witness :
    ensureToken (authenticate ⟨none, none⟩ 0 true "tk" 3600).1 100 true "tk2" 3600 =
      ((authenticate ⟨none, none⟩ 0 true "tk" 3600).1, false) ∧
    (ensureToken (authenticate ⟨none, none⟩ 0 true "tk" 3600).1 3300 true "tk2" 3600).2 =
      true := by
  constructor
  · exact (c4_token_reuse 0 3600 "tk" (by decide) (by norm_num [token_buffer])
      (by norm_num) 100 true "tk2" 3600).2.1 (by norm_num [token_buffer])
  · exact (c4_token_reuse 0 3600 "tk" (by decide) (by norm_num [token_buffer])
      (by norm_num) 3300 true "tk2" 3600).2.2 (by norm_num [token_buffer])

/-- Claim C2, counterexample: in a 100-identifier run the job state after the
29th identifier has `percent = 28`, but `floor(100 * 29 / 100) = 29`: the
Python expression `int(((i + 1) / total) * 100)` evaluates `29 / 100` and the
multiplication by 100 in binary64, and the product rounds to just below 29,
so truncation loses one percent point. -/
theorem c2_percent_floor_refuted :
    (process_tracking_job (List.replicate 100 ("1", "c")) 0 (fun _ => .ok none)).states.get? 29 =
      some ⟨.processing, 100, 29, 28⟩ ∧
    (100 * 29) / 100 = 29 ∧ pyPercent 29 100 = 28 := by
  refine ⟨by decide, by decide, by decide⟩

/-- Claim C2, as amended: across the whole run of a job's background task,
`total` is fixed, `current` is monotonically non-decreasing and never exceeds
`total`, `percent` is `int(((current) / total) * 100)` computed in IEEE-754
binary64 (`pyPercent`, which lies in [0, 100] but can fall one below
`floor(100 * current / total)`), and every transition leaves a `processing`
state — the unique terminal state (`completed` or `error`) ends the run and
is never left or revisited. -/
theorem c2_job_invariants (items : List (String × String)) (today : ℤ)
    (fetch : ℕ → FetchOutcome) :
    (process_tracking_job items today fetch).states.head? =
      some ⟨.processing, items.length, 0, 0⟩ ∧
    List.Chain' (fun a b : JState => a.status = .processing ∧ a.current ≤ b.current)
      (process_tracking_job items today fetch).states ∧
    (∀ st ∈ (process_tracking_job items today fetch).states,
      st.total = items.length ∧ st.current ≤ items.length ∧ st.percent ≤ 100 ∧
      (st.current = 0 → st.percent = 0) ∧
      (1 ≤ st.current → st.percent = pyPercent st.current items.length)) ∧
    (∀ st ∈ (process_tracking_job items today fetch).states.dropLast,
      st.status = .processing) ∧
    ((process_tracking_job items today fetch).states.getLast?).map JState.status =
      some (process_tracking_job items today fetch).status ∧
    ((process_tracking_job items today fetch).status = .completed ∨
      (process_tracking_job items today fetch).status = .error) := by
  obtain ⟨hChain, hInv, hDrop, hNe, hLast, hTerm⟩ :=
    procLoop_spec items.length today fetch items 0 0 [] (by omega) (by omega) (fun _ => rfl)
      (by omega)
  simp only [process_tracking_job]
  refine ⟨rfl, hChain, ?_, ?_, ?_, hTerm⟩
  · intro st hst
    rcases List.mem_cons.1 hst with h | h
    · subst h
      exact ⟨rfl, by show 0 ≤ items.length; omega, by show 0 ≤ 100; omega, fun _ => rfl,
        fun h => absurd (show (1:ℕ) ≤ 0 from h) (by omega)⟩
    · exact hInv st h
  · intro st hst
    obtain ⟨x, xs, hx⟩ := List.exists_cons_of_ne_nil hNe
    rw [hx, List.dropLast_cons₂] at hst
    rcases List.mem_cons.1 hst with h | h
    · subst h
      rfl
    · exact hDrop st (by rw [hx]; exact h)
  · obtain ⟨x, xs, hx⟩ := List.exists_cons_of_ne_nil hNe
    rw [hx, List.getLast?_cons_cons]
    rw [hx] at hLast
    exact hLast

/-- Claim C6, counterexample: in the success/success/429-exhausted scenario
the failed third row is marked "Unknown" (the default), not "Error", and its
recommendation field is empty — no rate-limit diagnostic survives, because
the `None` failure marker returned by `track_shipment` carries neither the
status code nor a message. -/
theorem c6_failure_row_refuted :
    (process_tracking_job items3 0 fetch3).results.map Record.sonia_status =
      ["Delivered", "In Transit", "Unknown"] ∧
    ("Unknown" : String) ≠ "Error" ∧
    (process_tracking_job items3 0 fetch3).results.map Record.sonia_recommendation =
      ["Paquete entregado exitosamente.", "Paquete en transito al destino.", ""] := by
  refine ⟨by decide, by decide, by decide⟩

/-- Claim C6, as amended: the 3-identifier batch with upstream
success/success/429-exhausted completes with exactly 3 rows in submission
order; the two successful rows carry populated canonical statuses
("Delivered", "In Transit"), while the rate-limited row degrades to the
default record (status "Unknown", empty recommendation) because the
exhausted retry returns the bare `None` marker. -/
theorem c6_rate_limit_scenario :
    (process_tracking_job items3 0 fetch3).status = .completed ∧
    (process_tracking_job items3 0 fetch3).results.length = 3 ∧
    (process_tracking_job items3 0 fetch3).results.map Record.is_delivered =
      [true, false, false] ∧
    (process_tracking_job items3 0 fetch3).results.map Record.tracking_number =
      ["740001", "740002", "740003"] ∧
    (track_shipment_flow always429 nullBody).result = none ∧
    (track_shipment_flow always429 nullBody).posts = 2 := by
  refine ⟨by decide, by decide, by decide, by decide, rfl, rfl⟩

/-- Claim C7, counterexample: the value `track_shipment` hands back on
failure is the bare `None` — runs whose last statuses differ (401 vs 503)
return the very same marker, so the marker cannot carry the last status. -/
theorem c7_marker_carries_no_status :
    (track_shipment_flow always401 nullBody).result = none ∧
    (track_shipment_flow always503 nullBody).result = none ∧
    (track_shipment_flow always401 nullBody).finalStatus = 401 ∧
    (track_shipment_flow always503 nullBody).finalStatus = 503 := by
  refine ⟨rfl, rfl, rfl, rfl⟩

/-- Claim C7, as amended: a 401 response triggers exactly one forced
token-refresh-and-retry cycle (never more, never an unbounded loop — at most
3 POSTs ever leave one `track_shipment` call), and when the final response
is still not 200 the call returns `None`, a failure marker carrying no
status information. -/
theorem c7_bounded_refresh (status : ℕ → ℕ) (body : ℕ → Json) :
    (track_shipment_flow status body).refreshes ≤ 1 ∧
    (track_shipment_flow status body).posts ≤ 3 ∧
    ((track_shipment_flow status body).finalStatus ≠ 200 →
      (track_shipment_flow status body).result = none) := by
  unfold track_shipment_flow
  dsimp only
  split_ifs <;> simp_all

/-- Claim C7 witness: an upstream that always answers 401 exhausts the single
refresh-and-retry cycle and surfaces `None`. -/
theorem c7_bounded_refresh_witness :
    (track_shipment_flow always401 nullBody).result = none :=
  (c7_bounded_refresh always401 nullBody).2.2 (by decide)

/-- Claim C8: the sleeps taken before successive 429 retries of one
`track_shipment` call are strictly increasing (the code takes at most one
retry, after a single 2-second sleep), the number of 429 retries is bounded
by the fixed maximum 1, and when the retries are exhausted without a 200 the
call returns the failure marker `None`. -/
theorem c8_rate_limit_backoff (status : ℕ → ℕ) (body : ℕ → Json) :
    List.Chain' (fun a b : ℚ => a < b) (track_shipment_flow status body).delays ∧
    (track_shipment_flow status body).delays.length ≤ 1 ∧
    ((track_shipment_flow status body).finalStatus ≠ 200 →
      (track_shipment_flow status body).result = none) := by
  unfold track_shipment_flow
  dsimp only
  split_ifs <;> simp_all

/-- Claim C8 witness: an upstream that always answers 429 sleeps once and
surfaces `None`. -/
theorem c8_rate_limit_backoff_witness :
    (track_shipment_flow always429 nullBody).result = none :=
  (c8_rate_limit_backoff always429 nullBody).2.2 (by decide)
